import Mathlib

/-!
Verification development for the telegram-bingo-bot repository.

The authoritative server-side game logic (Flask backend) is not part of the
excerpted source; only its client callers are. The Session state machine,
DrawPool, WinDetector and prize-pool accounting below are therefore modelled
from the specification. The database setup loop and the manual mark-number
control are embedded directly from src/setup.sh and src/webapp/script.js.
-/

namespace Bingo

/-- Modelled from the spec: session lifecycle status, `waiting` (initial),
`active`, `finished` (terminal). The backend state machine is missing from
the excerpted source. -/
inductive Status where
  | waiting
  | active
  | finished
deriving DecidableEq, Repr

/-- Modelled from the spec: the structured error kinds of the session state
machine (spec section 7). -/
inductive GameError where
  | InvalidState
  | Forbidden
  | AlreadyJoined
  | CardTaken
  | NotDrawn
  | NotOnCard
  | NotAWin
  | AlreadyFinished
  | Exhausted
  | NotFound
deriving DecidableEq, Repr

/-- Modelled from the spec: a Participant of a Session — user identity,
assigned card identifier, the 5x5 number grid of that card (carried inline
because the backend card catalog is not in the excerpted source), and the
set of marked numbers kept as a duplicate-free list. -/
structure Participant where
  userId : Nat
  cardId : Nat
  card : Fin 5 → Fin 5 → Nat
  marked : List Nat

/-- Modelled from the spec: the Session record — status, creator identity,
entry fee, prize pool, ordered drawn-number sequence, remaining draw pool,
participants, and the winner (unset until finished). -/
structure Session where
  status : Status
  creator : Nat
  entryFee : Nat
  prizePool : Nat
  drawn : List Nat
  pool : List Nat
  participants : List Participant
  winner : Option Nat

/-- From src/webapp/script.js CONFIG: the fixed card price (entry fee) of
5 dollars, identical in the development and production configurations. -/
def CARD_PRICE : Nat := 5

/-- The full number range 1..75 of a Bingo draw pool. -/
def base75 : List Nat := (List.range 75).map (· + 1)

/-- Modelled from the spec: a freshly created session in the `waiting`
state, with an empty drawn sequence, empty pool, no participants, zero
prize pool and no winner. -/
def initSession (creator fee : Nat) : Session :=
  { status := .waiting
    creator := creator
    entryFee := fee
    prizePool := 0
    drawn := []
    pool := []
    participants := []
    winner := none }

/-- Modelled from the spec: `join(session, user, cardId)` — permitted only
in `waiting`; fails with AlreadyJoined if the user already holds a card in
this session, CardTaken if the card is held by someone else, InvalidState
if the session is not waiting; on success adds the Participant and
increments the prize pool by the fixed entry fee. -/
def joinGame (s : Session) (u cid : Nat) (card : Fin 5 → Fin 5 → Nat) :
    Except GameError Session :=
  if s.status = .waiting then
    if s.participants.any (fun p => decide (p.userId = u)) then
      .error .AlreadyJoined
    else if s.participants.any (fun p => decide (p.cardId = cid)) then
      .error .CardTaken
    else
      .ok { s with
            participants :=
              { userId := u, cardId := cid, card := card, marked := [] } ::
                s.participants
            prizePool := s.prizePool + s.entryFee }
  else .error .InvalidState

/-- Modelled from the spec: `start(session, requester)` — permitted only by
the creator (else Forbidden), only in `waiting` and with at least one
participant (else InvalidState); transitions to `active` and instantiates
the DrawPool. The pool contents are a parameter standing for the random
permutation of 1..75 the DrawPool is initialized with. -/
def startGame (s : Session) (r : Nat) (sh : List Nat) :
    Except GameError Session :=
  if r = s.creator then
    if s.status = .waiting ∧ 1 ≤ s.participants.length then
      .ok { s with status := .active, pool := sh }
    else .error .InvalidState
  else .error .Forbidden

/-- Modelled from the spec: `drawNumber(session)` — permitted only in
`active`; selects a number from the remaining pool (the selection index is
a parameter standing for the random choice), removes it from the pool,
appends it to the drawn sequence and returns it; fails with Exhausted when
the pool is empty. -/
def drawNumber (s : Session) (idx : Nat) :
    Except GameError (Session × Nat) :=
  if s.status = .active then
    if h : 0 < s.pool.length then
      let n := s.pool.get ⟨idx % s.pool.length, Nat.mod_lt idx h⟩
      .ok ({ s with pool := s.pool.erase n, drawn := s.drawn ++ [n] }, n)
    else .error .Exhausted
  else .error .InvalidState

/-- Adds a number to a marked set kept as a duplicate-free list; a no-op
when the number is already marked. -/
def insertMarked (n : Nat) (l : List Nat) : List Nat :=
  if n ∈ l then l else n :: l

/-- Modelled from the spec: membership test of a number in a non-free cell
of a 5x5 card grid; the free cell is always at position (2,2). -/
def isOnCard (card : Fin 5 → Fin 5 → Nat) (n : Nat) : Bool :=
  (List.finRange 5).any fun r => (List.finRange 5).any fun c =>
    !(decide (r.val = 2 ∧ c.val = 2)) && decide (card r c = n)

/-- The per-participant update applied by a successful mark: the targeted
user gains the number in their marked set, everyone else is unchanged. -/
def markUpd (u n : Nat) (q : Participant) : Participant :=
  if q.userId = u then { q with marked := insertMarked n q.marked } else q

/-- Modelled from the spec: `mark(session, user, number)` — permitted only
in `active`; validates the number is in the drawn sequence (else NotDrawn)
and present on the user card (else NotOnCard); adds it to the marked set,
idempotently. -/
def markNumber (s : Session) (u n : Nat) : Except GameError Session :=
  if s.status = .active then
    if n ∈ s.drawn then
      match s.participants.find? (fun p => decide (p.userId = u)) with
      | none => .error .NotFound
      | some p =>
        if isOnCard p.card n then
          .ok { s with participants := s.participants.map (markUpd u n) }
        else .error .NotOnCard
    else .error .NotDrawn
  else .error .InvalidState

/-- The mirrored index used by the anti-diagonal of a 5x5 grid. -/
def rev5 (i : Fin 5) : Fin 5 := ⟨4 - i.val, by omega⟩

/-- Evaluates a predicate on all five indices of a row, column or
diagonal. -/
def allCells (p : Fin 5 → Bool) : Bool := (List.finRange 5).all p

/-- Modelled from the spec: WinDetector — given a 5x5 logical mark-grid,
evaluate the standard Bingo qualifying patterns: any full row, any full
column, either diagonal. -/
def checkWin (g : Fin 5 → Fin 5 → Bool) : Bool :=
  ((List.finRange 5).any fun r => allCells fun c => g r c) ||
  ((List.finRange 5).any fun c => allCells fun r => g r c) ||
  (allCells fun i => g i i) ||
  (allCells fun i => g i (rev5 i))

/-- Modelled from the spec: the logical mark-grid of a participant — true
where the cell number is marked, true always at the free center cell. -/
def markGrid (card : Fin 5 → Fin 5 → Nat) (marked : List Nat) :
    Fin 5 → Fin 5 → Bool :=
  fun r c => decide (r.val = 2 ∧ c.val = 2) || decide (card r c ∈ marked)

/-- Modelled from the spec: `claimBingo(session, user)` — claims arriving
after the finished transition fail with AlreadyFinished (never NotAWin);
claims in `waiting` fail with InvalidState; in `active` the claim is
delegated to WinDetector on the claimant marked set, and a valid claim
transitions the session to `finished` and records the winner. -/
def claimBingo (s : Session) (u : Nat) : Except GameError Session :=
  match s.status with
  | .finished => .error .AlreadyFinished
  | .waiting => .error .InvalidState
  | .active =>
    match s.participants.find? (fun p => decide (p.userId = u)) with
    | none => .error .NotFound
    | some p =>
      if checkWin (markGrid p.card p.marked) then
        .ok { s with status := .finished, winner := some u }
      else .error .NotAWin

/-- A sample 5x5 card grid holding the numbers 1..25 row by row; its middle
column holds 3, 8, 13 (the free position), 18, 23. -/
def sampleCard : Fin 5 → Fin 5 → Nat := fun r c => 5 * r.val + c.val + 1

/-- Extracts the session of a successful operation, keeping the fallback
session on an error. -/
def stepOk (fallback : Session) : Except GameError Session → Session
  | .ok s => s
  | .error _ => fallback

/-- Extracts the session of a successful draw, keeping the fallback session
on an error. -/
def drawOk (s : Session) (idx : Nat) : Session :=
  match drawNumber s idx with
  | .ok p => p.1
  | .error _ => s

/-- A concrete run: the session as created by user 0 at the configured card
price. -/
def sess0 : Session := initSession 0 CARD_PRICE

/-- The run after user 1 joins with card 10. -/
def sess1 : Session := stepOk sess0 (joinGame sess0 1 10 sampleCard)

/-- The run after the creator starts the game on the full pool 1..75. -/
def sess2 : Session := stepOk sess1 (startGame sess1 0 base75)

/-- The run after drawing 3 (index 2 of the pool). -/
def sess3 : Session := drawOk sess2 2

/-- The run after drawing 8. -/
def sess4 : Session := drawOk sess3 6

/-- The run after drawing 18. -/
def sess5 : Session := drawOk sess4 15

/-- The run after drawing 23. -/
def sess6 : Session := drawOk sess5 19

/-- The run after user 1 marks 3. -/
def sess7 : Session := stepOk sess6 (markNumber sess6 1 3)

/-- The run after user 1 marks 8. -/
def sess8 : Session := stepOk sess7 (markNumber sess7 1 8)

/-- The run after user 1 marks 18. -/
def sess8b : Session := stepOk sess8 (markNumber sess8 1 18)

/-- The run after user 1 marks 23, completing the middle column together
with the free cell. -/
def sess9 : Session := stepOk sess8b (markNumber sess8b 1 23)

/-- The run after user 1 claims bingo on the completed middle column. -/
def sess10 : Session := stepOk sess9 (claimBingo sess9 1)

/-- One transition of the session state machine: a successful join, start,
draw, mark or claim. The pool a start installs is a permutation of 1..75,
as the DrawPool contract requires. -/
inductive Step : Session → Session → Prop where
  | join (s s' : Session) (u cid : Nat) (card : Fin 5 → Fin 5 → Nat)
      (h : joinGame s u cid card = .ok s') : Step s s'
  | start (s s' : Session) (r : Nat) (sh : List Nat)
      (hperm : sh.Perm base75) (h : startGame s r sh = .ok s') : Step s s'
  | draw (s s' : Session) (idx n : Nat)
      (h : drawNumber s idx = .ok (s', n)) : Step s s'
  | mark (s s' : Session) (u n : Nat)
      (h : markNumber s u n = .ok s') : Step s s'
  | claim (s s' : Session) (u : Nat)
      (h : claimBingo s u = .ok s') : Step s s'

/-- Zero or more transitions of the session state machine. -/
inductive StepStar : Session → Session → Prop where
  | refl (s : Session) : StepStar s s
  | tail (s t t' : Session) (hst : StepStar s t) (h : Step t t') : StepStar s t'

/-- A session is reachable when some run of the state machine from a fresh
session produces it. -/
def Reachable (s : Session) : Prop :=
  ∃ creator fee, StepStar (initSession creator fee) s

/-- Claim C2: WinDetector, applied to a 5x5 boolean mark-grid whose center
(free) cell is true, returns true if and only if some full row, some full
column, or one of the two diagonals is entirely marked. In particular a
grid with one fully marked row, column or diagonal is detected as a win,
and a grid missing a cell of every such pattern is not. -/
theorem winDetector_iff (g : Fin 5 → Fin 5 → Bool) (_hfree : g 2 2 = true) :
    checkWin g = true ↔
      ((∃ r, ∀ c, g r c = true) ∨ (∃ c, ∀ r, g r c = true) ∨
        (∀ i, g i i = true) ∨ (∀ i, g i (rev5 i) = true)) := by
  simp [checkWin, allCells, List.any_eq_true, List.all_eq_true,
    List.mem_finRange]
  tauto

/-- A mark-grid whose entire first row is marked, with the free center. -/
def rowZeroGrid : Fin 5 → Fin 5 → Bool :=
  fun r c => decide (r.val = 0) || decide (r.val = 2 ∧ c.val = 2)

/-- Witness for C2 at a concrete grid with a fully marked first row. -/
theorem winDetector_iff_witness : checkWin rowZeroGrid = true :=
  (winDetector_iff rowZeroGrid rfl).mpr (Or.inl ⟨0, by decide⟩)

/-- Claim C4: in an active session, marking a number that has not been
drawn fails with NotDrawn. In this functional embedding a failing
operation returns only the error and no session, so the marked set of the
participant and all other session state are unchanged. -/
theorem mark_notDrawn (s : Session) (u n : Nat)
    (hact : s.status = .active) (hnd : n ∉ s.drawn) :
    markNumber s u n = .error .NotDrawn := by
  simp [markNumber, hact, hnd]

/-- Witness for C4: in the concrete active session, marking the undrawn
number 50 fails with NotDrawn. -/
theorem mark_notDrawn_witness : markNumber sess2 1 50 = .error .NotDrawn :=
  mark_notDrawn sess2 1 50 (by decide) (by decide)

/-- Claim C6: join is permitted only while the session status is waiting;
for a session whose status is active or finished, a join attempt fails
with InvalidState, and (the operation returning only the error) adds no
participant. -/
theorem join_only_waiting (s : Session) (u cid : Nat)
    (card : Fin 5 → Fin 5 → Nat)
    (h : s.status = .active ∨ s.status = .finished) :
    joinGame s u cid card = .error .InvalidState := by
  have hne : s.status ≠ .waiting := by
    rcases h with h | h <;> simp [h]
  simp [joinGame, hne]

/-- Witness for C6: joining the concrete active session fails with
InvalidState. -/
theorem join_only_waiting_witness :
    joinGame sess2 5 20 sampleCard = .error .InvalidState :=
  join_only_waiting sess2 5 20 sampleCard (Or.inl (by decide))

/-- Claim C7: start succeeds only when the requester is the creator, the
session is waiting and at least one participant has joined; a non-creator
requester fails with Forbidden, and an otherwise-invalid start fails with
InvalidState. A failing start returns only the error, so the session stays
in its previous state, in particular in waiting. -/
theorem start_policy (s s' : Session) (r : Nat) (sh : List Nat) :
    (startGame s r sh = .ok s' →
       r = s.creator ∧ s.status = .waiting ∧ 1 ≤ s.participants.length) ∧
    (r ≠ s.creator → startGame s r sh = .error .Forbidden) ∧
    (r = s.creator → (s.status ≠ .waiting ∨ s.participants.length = 0) →
       startGame s r sh = .error .InvalidState) := by
  refine ⟨?_, ?_, ?_⟩
  · intro h
    unfold startGame at h
    split at h
    · split at h
      · rename_i hc hw
        exact ⟨hc, hw.1, hw.2⟩
      · cases h
    · cases h
  · intro hr
    simp [startGame, hr]
  · intro hr hbad
    have hnot : ¬ (s.status = .waiting ∧ 1 ≤ s.participants.length) := by
      rcases hbad with hb | hb
      · exact fun hw => hb hw.1
      · exact fun hw => by omega
    simp [startGame, hr, hnot]

/-- Witness for C7: a non-creator start fails with Forbidden, a start with
no participants fails with InvalidState, and the successful concrete start
had the creator, a waiting session and a participant. -/
theorem start_policy_witness :
    startGame sess1 5 base75 = .error .Forbidden ∧
    startGame sess0 0 base75 = .error .InvalidState ∧
    (0 = sess1.creator ∧ sess1.status = .waiting ∧
      1 ≤ sess1.participants.length) :=
  ⟨(start_policy sess1 sess1 5 base75).2.1 (by decide),
   (start_policy sess0 sess0 0 base75).2.2 (by decide) (Or.inr (by decide)),
   (start_policy sess1 sess2 0 base75).1 rfl⟩

theorem markUpd_userId (u n : Nat) (q : Participant) :
    (markUpd u n q).userId = q.userId := by
  unfold markUpd
  split <;> rfl

theorem markUpd_card (u n : Nat) (q : Participant) :
    (markUpd u n q).card = q.card := by
  unfold markUpd
  split <;> rfl

theorem mem_insertMarked (n : Nat) (l : List Nat) : n ∈ insertMarked n l := by
  unfold insertMarked
  split
  · assumption
  · exact List.mem_cons_self _ _

theorem insertMarked_idem (n : Nat) (l : List Nat) :
    insertMarked n (insertMarked n l) = insertMarked n l := by
  show (if n ∈ insertMarked n l then insertMarked n l
        else n :: insertMarked n l) = insertMarked n l
  rw [if_pos (mem_insertMarked n l)]

theorem markUpd_idem (u n : Nat) (q : Participant) :
    markUpd u n (markUpd u n q) = markUpd u n q := by
  by_cases hq : q.userId = u
  · simp [markUpd, hq, insertMarked_idem]
  · simp [markUpd, hq]

theorem find?_markUpd (u n : Nat) (l : List Participant) :
    (l.map (markUpd u n)).find? (fun p => decide (p.userId = u)) =
      (l.find? (fun p => decide (p.userId = u))).map (markUpd u n) := by
  induction l with
  | nil => rfl
  | cons q l ih =>
    by_cases hq : q.userId = u
    · simp [List.find?_cons, markUpd_userId, hq]
    · simp [List.find?_cons, markUpd_userId, hq, ih]

theorem map_markUpd_idem (u n : Nat) (l : List Participant) :
    (l.map (markUpd u n)).map (markUpd u n) = l.map (markUpd u n) := by
  rw [List.map_map]
  exact List.map_congr_left fun q _ => markUpd_idem u n q

theorem comp_pred_markUpd (u n : Nat) :
    ((fun p => decide (p.userId = u)) ∘ markUpd u n) =
      (fun p : Participant => decide (p.userId = u)) := by
  funext q
  simp [Function.comp, markUpd_userId]

theorem comp_markUpd (u n : Nat) :
    markUpd u n ∘ markUpd u n = markUpd u n := by
  funext q
  exact markUpd_idem u n q

/-- Claim C5: mark is idempotent — marking the same number twice yields
exactly the same session (hence the same marked set) as marking it once,
and the second mark is a successful no-op rather than an error. -/
theorem mark_idempotent (s s' : Session) (u n : Nat)
    (h : markNumber s u n = .ok s') : markNumber s' u n = .ok s' := by
  unfold markNumber at h
  by_cases hact : s.status = .active
  · rw [if_pos hact] at h
    by_cases hnd : n ∈ s.drawn
    · rw [if_pos hnd] at h
      split at h
      · cases h
      · rename_i p hfind
        by_cases hoc : isOnCard p.card n = true
        · rw [if_pos hoc] at h
          injection h with hs
          subst hs
          simp [markNumber, hact, hnd, comp_pred_markUpd, hfind, markUpd_card,
            hoc, comp_markUpd]
        · rw [if_neg hoc] at h; cases h
    · rw [if_neg hnd] at h; cases h
  · rw [if_neg hact] at h; cases h

/-- Witness for C5: the second mark of 3 in the concrete run is a no-op
success. -/
theorem mark_idempotent_witness : markNumber sess7 1 3 = .ok sess7 :=
  mark_idempotent sess6 sess7 1 3 rfl

theorem no_step_from_finished (t t' : Session)
    (hf : t.status = .finished) : ¬ Step t t' := by
  intro hstep
  cases hstep with
  | join u cid card h =>
    simp [joinGame, hf] at h
  | start r sh hperm h =>
    unfold startGame at h
    split at h
    · simp [hf] at h
    · cases h
  | draw idx n h =>
    simp [drawNumber, hf] at h
  | mark u n h =>
    simp [markNumber, hf] at h
  | claim u h =>
    simp [claimBingo, hf] at h

theorem star_from_finished (s t : Session)
    (hf : s.status = .finished) (hst : StepStar s t) : t = s := by
  induction hst with
  | refl => rfl
  | tail t t' hst hstep ih =>
    exact absurd (ih ▸ hstep) (no_step_from_finished _ _ (ih ▸ hf))

theorem claimBingo_of_finished (t : Session) (v : Nat)
    (hf : t.status = .finished) :
    claimBingo t v = .error .AlreadyFinished := by
  simp [claimBingo, hf]

/-- Claim C1: at most one claimBingo ever succeeds — a successful claim was
made in the active state, transitions the session to finished and records
the winner, and every claim processed at or after that transition
(including otherwise valid ones, after any further run of the state
machine) fails with AlreadyFinished, not with NotAWin or InvalidState. -/
theorem claim_at_most_one_winner (s s' : Session) (u : Nat)
    (h : claimBingo s u = .ok s') :
    s.status = .active ∧ s'.status = .finished ∧ s'.winner = some u ∧
    ∀ t, StepStar s' t → ∀ v, claimBingo t v = .error .AlreadyFinished := by
  unfold claimBingo at h
  split at h
  · cases h
  · cases h
  · rename_i hact
    split at h
    · cases h
    · rename_i p hfind
      split at h
      · rename_i hwin
        injection h with hs
        subst hs
        refine ⟨hact, rfl, rfl, ?_⟩
        intro t hst v
        have ht := star_from_finished _ t rfl hst
        subst ht
        exact claimBingo_of_finished _ v rfl
      · cases h

/-- Witness for C1: in the concrete run the claim of user 1 succeeded, the
session is finished with winner 1, and a later claim by user 2 fails with
AlreadyFinished. -/
theorem claim_at_most_one_winner_witness :
    sess9.status = .active ∧ sess10.status = .finished ∧
    sess10.winner = some 1 ∧
    claimBingo sess10 2 = .error .AlreadyFinished := by
  have hc := claim_at_most_one_winner sess9 sess10 1 rfl
  exact ⟨hc.1, hc.2.1, hc.2.2.1, hc.2.2.2 sess10 (.refl _) 2⟩

theorem joinGame_ok (s s' : Session) (u cid : Nat)
    (card : Fin 5 → Fin 5 → Nat) (h : joinGame s u cid card = .ok s') :
    s.status = .waiting ∧
    s' = { s with
           participants := { userId := u, cardId := cid, card := card,
                             marked := [] } :: s.participants,
           prizePool := s.prizePool + s.entryFee } := by
  unfold joinGame at h
  split at h
  · rename_i hw
    split at h
    · cases h
    · split at h
      · cases h
      · injection h with hs
        exact ⟨hw, hs.symm⟩
  · cases h

theorem startGame_ok (s s' : Session) (r : Nat) (sh : List Nat)
    (h : startGame s r sh = .ok s') :
    s.status = .waiting ∧ s' = { s with status := .active, pool := sh } := by
  unfold startGame at h
  split at h
  · split at h
    · rename_i hw
      injection h with hs
      exact ⟨hw.1, hs.symm⟩
    · cases h
  · cases h

theorem drawNumber_ok (s s' : Session) (idx n : Nat)
    (h : drawNumber s idx = .ok (s', n)) :
    s.status = .active ∧ n ∈ s.pool ∧
    s' = { s with pool := s.pool.erase n, drawn := s.drawn ++ [n] } := by
  unfold drawNumber at h
  split at h
  · rename_i hact
    split at h
    · injection h with hpair
      injection hpair with hs hn
      subst hn
      exact ⟨hact, List.get_mem _ _ _, hs.symm⟩
    · cases h
  · cases h

theorem markNumber_ok (s s' : Session) (u n : Nat)
    (h : markNumber s u n = .ok s') :
    s.status = .active ∧
    s' = { s with participants := s.participants.map (markUpd u n) } := by
  unfold markNumber at h
  split at h
  · rename_i hact
    split at h
    · split at h
      · cases h
      · split at h
        · injection h with hs
          exact ⟨hact, hs.symm⟩
        · cases h
    · cases h
  · cases h

theorem claimBingo_ok (s s' : Session) (u : Nat)
    (h : claimBingo s u = .ok s') :
    s.status = .active ∧
    s' = { s with status := .finished, winner := some u } := by
  unfold claimBingo at h
  split at h
  · cases h
  · cases h
  · rename_i hact
    split at h
    · cases h
    · split at h
      · injection h with hs
        exact ⟨hact, hs.symm⟩
      · cases h

theorem base75_nodup : base75.Nodup := by
  unfold base75
  exact List.Nodup.map (fun a b hab => by omega) (List.nodup_range 75)

theorem mem_base75 (n : Nat) (h : n ∈ base75) : 1 ≤ n ∧ n ≤ 75 := by
  unfold base75 at h
  simp only [List.mem_map, List.mem_range] at h
  obtain ⟨a, ha, rfl⟩ := h
  omega

/-- The draw invariant: the drawn sequence and the remaining pool are each
duplicate-free, all their numbers lie in 1..75, the pool is disjoint from
the drawn sequence, and nothing is drawn before the session starts. -/
def DrawInv (s : Session) : Prop :=
  s.drawn.Nodup ∧ s.pool.Nodup ∧
  (∀ n ∈ s.drawn, 1 ≤ n ∧ n ≤ 75) ∧
  (∀ n ∈ s.pool, 1 ≤ n ∧ n ≤ 75) ∧
  (∀ n ∈ s.pool, n ∉ s.drawn) ∧
  (s.status = .waiting → s.drawn = [])

theorem init_drawInv (c fee : Nat) : DrawInv (initSession c fee) :=
  ⟨List.nodup_nil, List.nodup_nil, by simp [initSession],
    by simp [initSession], by simp [initSession], fun _ => rfl⟩

theorem step_drawInv (s s' : Session) (hstep : Step s s')
    (hinv : DrawInv s) : DrawInv s' := by
  cases hstep with
  | join u cid card h =>
    obtain ⟨-, rfl⟩ := joinGame_ok s s' u cid card h
    exact hinv
  | start r sh hperm h =>
    obtain ⟨hw, rfl⟩ := startGame_ok s s' r sh h
    obtain ⟨hd1, hp1, hd2, hp2, hdisj, hwe⟩ := hinv
    have hdrawn : s.drawn = [] := hwe hw
    refine ⟨hd1, hperm.nodup_iff.mpr base75_nodup, hd2, ?_, ?_, ?_⟩
    · intro m hm
      exact mem_base75 m (hperm.mem_iff.mp hm)
    · intro m hm
      show m ∉ s.drawn
      rw [hdrawn]
      exact List.not_mem_nil m
    · intro hws
      exact Status.noConfusion hws
  | draw idx n h =>
    obtain ⟨hact, hmem, rfl⟩ := drawNumber_ok s s' idx n h
    obtain ⟨hd1, hp1, hd2, hp2, hdisj, hwe⟩ := hinv
    refine ⟨?_, List.Nodup.erase n hp1, ?_, ?_, ?_, ?_⟩
    · rw [List.nodup_append]
      refine ⟨hd1, List.nodup_singleton n, ?_⟩
      intro a ha hna
      exact hdisj n hmem (by rwa [List.mem_singleton.mp hna] at ha)
    · intro m hm
      rcases List.mem_append.mp hm with h' | h'
      · exact hd2 m h'
      · rw [List.mem_singleton.mp h']
        exact hp2 n hmem
    · intro m hm
      exact hp2 m (List.mem_of_mem_erase hm)
    · intro m hm hdr
      have hm' := hp1.mem_erase_iff.mp hm
      rcases List.mem_append.mp hdr with h' | h'
      · exact hdisj m hm'.2 h'
      · exact hm'.1 (List.mem_singleton.mp h')
    · intro hws
      rw [hact] at hws
      exact Status.noConfusion hws
  | mark u n h =>
    obtain ⟨-, rfl⟩ := markNumber_ok s s' u n h
    exact hinv
  | claim u h =>
    obtain ⟨-, rfl⟩ := claimBingo_ok s s' u h
    obtain ⟨hd1, hp1, hd2, hp2, hdisj, -⟩ := hinv
    exact ⟨hd1, hp1, hd2, hp2, hdisj, fun hws => Status.noConfusion hws⟩

theorem star_drawInv (s t : Session) (hst : StepStar s t)
    (hinv : DrawInv s) : DrawInv t := by
  induction hst with
  | refl => exact hinv
  | tail t t' hst hstep ih =>
    exact step_drawInv _ _ hstep ih

/-- Claim C3: for every reachable session, the drawn-number sequence has no
duplicates and every element lies in 1..75; since a draw removes the drawn
number from the remaining pool, a number once drawn is never redrawn within
that session. -/
theorem drawn_nodup_inrange (s : Session) (h : Reachable s) :
    s.drawn.Nodup ∧ ∀ n ∈ s.drawn, 1 ≤ n ∧ n ≤ 75 := by
  obtain ⟨c, fee, hst⟩ := h
  have hinv : DrawInv s := star_drawInv _ _ hst (init_drawInv c fee)
  exact ⟨hinv.1, hinv.2.2.1⟩

/-- Witness for C3: the concrete session after one draw is reachable; its
drawn sequence is duplicate-free and the drawn number 3 is within 1..75. -/
theorem drawn_nodup_inrange_witness :
    sess3.drawn.Nodup ∧ (1 ≤ 3 ∧ 3 ≤ 75) := by
  have h1 : Step sess0 sess1 := .join sess0 sess1 1 10 sampleCard rfl
  have h2 : Step sess1 sess2 :=
    .start sess1 sess2 0 base75 (List.Perm.refl _) rfl
  have h3 : Step sess2 sess3 := .draw sess2 sess3 2 3 rfl
  have hstar : StepStar sess0 sess3 :=
    .tail sess0 sess2 sess3
      (.tail sess0 sess1 sess2
        (.tail sess0 sess0 sess1 (.refl sess0) h1) h2) h3
  have hreach : Reachable sess3 := ⟨0, CARD_PRICE, hstar⟩
  exact ⟨(drawn_nodup_inrange sess3 hreach).1,
    (drawn_nodup_inrange sess3 hreach).2 3 (by decide)⟩

/-- The prize-pool invariant: the pool is exactly the entry fee times the
number of participants. -/
def PoolInv (s : Session) : Prop :=
  s.prizePool = s.entryFee * s.participants.length

theorem init_poolInv (c fee : Nat) : PoolInv (initSession c fee) := by
  simp [PoolInv, initSession]

theorem step_poolInv (s s' : Session) (hstep : Step s s')
    (hinv : PoolInv s) : PoolInv s' := by
  cases hstep with
  | join u cid card h =>
    obtain ⟨-, rfl⟩ := joinGame_ok s s' u cid card h
    show s.prizePool + s.entryFee = s.entryFee * (s.participants.length + 1)
    rw [hinv]
    ring
  | start r sh hperm h =>
    obtain ⟨-, rfl⟩ := startGame_ok s s' r sh h
    exact hinv
  | draw idx n h =>
    obtain ⟨-, -, rfl⟩ := drawNumber_ok s s' idx n h
    exact hinv
  | mark u n h =>
    obtain ⟨-, rfl⟩ := markNumber_ok s s' u n h
    show s.prizePool = s.entryFee * (s.participants.map (markUpd u n)).length
    rw [List.length_map]
    exact hinv
  | claim u h =>
    obtain ⟨-, rfl⟩ := claimBingo_ok s s' u h
    exact hinv

theorem star_poolInv (s t : Session) (hst : StepStar s t)
    (hinv : PoolInv s) : PoolInv t := by
  induction hst with
  | refl => exact hinv
  | tail t t' hst hstep ih =>
    exact step_poolInv _ _ hstep ih

/-- Claim C8: for every reachable session the prize pool equals the entry
fee times the number of participants; each successful join adds exactly one
participant and one entry fee, so after n joins at fee 5 the pool is 5n. -/
theorem prizePool_linear (s : Session) (h : Reachable s) :
    s.prizePool = s.entryFee * s.participants.length := by
  obtain ⟨c, fee, hst⟩ := h
  exact star_poolInv _ _ hst (init_poolInv c fee)

/-- The concrete session after a second join, user 2 with card 11. -/
def sessJ2 : Session := stepOk sess1 (joinGame sess1 2 11 sampleCard)

/-- The concrete session after a third join, user 3 with card 12. -/
def sessJ3 : Session := stepOk sessJ2 (joinGame sessJ2 3 12 sampleCard)

/-- Witness for C8: after three joins at the configured card price of 5
dollars the prize pool is 15 dollars. -/
theorem prizePool_linear_witness :
    sessJ3.prizePool = sessJ3.entryFee * sessJ3.participants.length ∧
    sessJ3.prizePool = 15 := by
  have h1 : Step sess0 sess1 := .join sess0 sess1 1 10 sampleCard rfl
  have h2 : Step sess1 sessJ2 := .join sess1 sessJ2 2 11 sampleCard rfl
  have h3 : Step sessJ2 sessJ3 := .join sessJ2 sessJ3 3 12 sampleCard rfl
  have hstar : StepStar sess0 sessJ3 :=
    .tail sess0 sessJ2 sessJ3
      (.tail sess0 sess1 sessJ2
        (.tail sess0 sess0 sess1 (.refl sess0) h1) h2) h3
  have hreach : Reachable sessJ3 := ⟨0, CARD_PRICE, hstar⟩
  exact ⟨prizePool_linear sessJ3 hreach, by decide⟩

/-- From src/setup.sh: one card slot of the generation loop — up to the
given number of generate_card calls, returning the first candidate whose
serialized card data is not already in the set of existing card data,
together with the next generator seed. The generator function is a
parameter standing for generate_card, consuming one seed per call. -/
def tryGenerate (gen : Nat → String) :
    Nat → Nat → List String → Option String × Nat
  | 0, k, _ => (none, k)
  | t + 1, k, existing =>
    if gen k ∈ existing then tryGenerate gen t (k + 1) existing
    else (some (gen k), k + 1)

/-- From src/setup.sh: the card generation loop over the given card
numbers, threading the generator seed and the set of already generated
card data; each card number inserts at most one row, and only with fresh
card data. -/
def setupLoop (gen : Nat → String) :
    List Nat → Nat → List String → List (Nat × String)
  | [], _, _ => []
  | cn :: rest, k, existing =>
    match tryGenerate gen 50 k existing with
    | (some c, kn) => (cn, c) :: setupLoop gen rest kn (c :: existing)
    | (none, kn) => setupLoop gen rest kn existing

/-- From src/setup.sh: the rows inserted by a single setup run on an empty
card catalog — card numbers 1..400, 50 attempts each, starting from an
empty set of existing card data. -/
def setupDatabase (gen : Nat → String) : List (Nat × String) :=
  setupLoop gen ((List.range 400).map (· + 1)) 0 []

theorem tryGenerate_fresh (gen : Nat → String) (t k : Nat)
    (ex : List String) (c : String) (kn : Nat)
    (h : tryGenerate gen t k ex = (some c, kn)) : c ∉ ex := by
  induction t generalizing k with
  | zero => simp [tryGenerate] at h
  | succ t ih =>
    unfold tryGenerate at h
    split at h
    · exact ih (k + 1) h
    · rename_i hnin
      injection h with h1 h2
      injection h1 with hc
      rw [← hc]
      exact hnin

theorem setupLoop_fst_sublist (gen : Nat → String) (cns : List Nat)
    (k : Nat) (ex : List String) :
    ((setupLoop gen cns k ex).map Prod.fst).Sublist cns := by
  induction cns generalizing k ex with
  | nil => simp [setupLoop]
  | cons cn rest ih =>
    unfold setupLoop
    split
    · rename_i c kn htry
      simp only [List.map_cons]
      exact List.Sublist.cons₂ cn (ih kn (c :: ex))
    · rename_i kn htry
      exact List.Sublist.cons cn (ih kn ex)

theorem setupLoop_snd_fresh (gen : Nat → String) (cns : List Nat)
    (k : Nat) (ex : List String) :
    ((setupLoop gen cns k ex).map Prod.snd).Nodup ∧
    ∀ c ∈ (setupLoop gen cns k ex).map Prod.snd, c ∉ ex := by
  induction cns generalizing k ex with
  | nil =>
    refine ⟨by simp [setupLoop], by simp [setupLoop]⟩
  | cons cn rest ih =>
    unfold setupLoop
    split
    · rename_i c kn htry
      obtain ⟨ihn, ihf⟩ := ih kn (c :: ex)
      simp only [List.map_cons]
      constructor
      · rw [List.nodup_cons]
        refine ⟨?_, ihn⟩
        intro hc
        exact (ihf c hc) (List.mem_cons_self c ex)
      · intro d hd
        rcases List.mem_cons.mp hd with rfl | hd'
        · exact tryGenerate_fresh gen 50 k ex d kn htry
        · intro hdex
          exact (ihf d hd') (List.mem_cons_of_mem c hdex)
    · rename_i kn htry
      exact ih kn ex

/-- Claim C9: a single setup run on an empty card catalog inserts at most
one card per card_number, the card numbers come from 1..400 in order (so
at most 400 cards in total), and no two inserted cards have identical
card_data. The generator is universally quantified, standing for the
random generate_card of the backend. -/
theorem setup_cards_unique (gen : Nat → String) :
    ((setupDatabase gen).map Prod.fst).Sublist ((List.range 400).map (· + 1)) ∧
    ((setupDatabase gen).map Prod.fst).Nodup ∧
    (setupDatabase gen).length ≤ 400 ∧
    ((setupDatabase gen).map Prod.snd).Nodup := by
  have hsub := setupLoop_fst_sublist gen ((List.range 400).map (· + 1)) 0 []
  have hrange : ((List.range 400).map (· + 1)).Nodup :=
    List.Nodup.map (fun a b hab => by omega) (List.nodup_range 400)
  have hlen := hsub.length_le
  rw [List.length_map, List.length_map, List.length_range] at hlen
  exact ⟨hsub, List.Nodup.sublist hsub hrange, hlen,
    (setupLoop_snd_fresh gen ((List.range 400).map (· + 1)) 0 []).1⟩

/-- From src/webapp/script.js renderBingoCard: one rendered card cell —
the numeric value its text parses to for a non-free cell, whether it
carries the free class (set exactly for the FREE center cell), and whether
it carries the marked class. -/
structure RenderedCell where
  value : Nat
  isFree : Bool
  isMarked : Bool

/-- From src/webapp/script.js findCellByNumber: the first rendered cell
without the free class whose text parses to the given number. -/
def findCellByNumber (cells : List RenderedCell) (n : Nat) :
    Option RenderedCell :=
  cells.find? fun c => !c.isFree && decide (c.value = n)

/-- From src/webapp/script.js markCell: the mark request is sent only when
the clicked cell is not already marked and the game is active (the FREE
guard cannot fire here, since the passed value is a parsed number). -/
def markCellSends (cell : RenderedCell) (active : Bool) : Bool :=
  !cell.isMarked && active

/-- A nonempty string of decimal digits, as accepted by the regular
expression of the handler together with the truthiness test on the
input. -/
def isDigitStr (s : String) : Bool :=
  !s.isEmpty && s.toList.all Char.isDigit

/-- The decimal value of a digit string, as computed by both the numeric
coercion of the range test and the parseInt call of the handler on such
input. -/
def digitVal (s : String) : Nat :=
  s.toList.foldl (fun a ch => 10 * a + (ch.toNat - 48)) 0

/-- From src/webapp/script.js setupEventListeners, markNumberBtn handler:
the number for which a mark request is issued, if any — the prompt input
must be a truthy all-digit string with value between 1 and 75, a non-free
cell with that number must exist on the rendered grid, and the markCell
guards must pass. -/
def markNumberSend (s : String) (cells : List RenderedCell)
    (active : Bool) : Option Nat :=
  if isDigitStr s && decide (1 ≤ digitVal s) && decide (digitVal s ≤ 75) then
    match findCellByNumber cells (digitVal s) with
    | some cell =>
      if markCellSends cell active then some (digitVal s) else none
    | none => none
  else none

/-- From src/webapp/script.js setupEventListeners, markNumberBtn handler:
the prompt may also be cancelled, in which case nothing happens. -/
def markNumberClick (input : Option String) (cells : List RenderedCell)
    (active : Bool) : Option Nat :=
  match input with
  | none => none
  | some s => markNumberSend s cells active

/-- Claim C10: the manual mark-number control issues a mark request only if
the prompted input is a string of decimal digits whose value lies between
1 and 75 and that number appears in a non-free cell of the rendered card
grid; for every other input no mark request is sent. -/
theorem markNumberClick_only_valid (input : Option String)
    (cells : List RenderedCell) (active : Bool) (n : Nat)
    (h : markNumberClick input cells active = some n) :
    ∃ s, input = some s ∧ isDigitStr s = true ∧
      1 ≤ digitVal s ∧ digitVal s ≤ 75 ∧ digitVal s = n ∧
      ∃ c ∈ cells, c.isFree = false ∧ c.value = n := by
  cases input with
  | none => cases h
  | some s =>
    refine ⟨s, rfl, ?_⟩
    have h' : markNumberSend s cells active = some n := h
    unfold markNumberSend at h'
    split at h'
    · rename_i hcond
      rw [Bool.and_eq_true, Bool.and_eq_true] at hcond
      obtain ⟨⟨hdig, hlo⟩, hhi⟩ := hcond
      split at h'
      · rename_i cell hfind
        split at h'
        · injection h' with hn
          have hmem := List.mem_of_find?_eq_some hfind
          have hpred := List.find?_some hfind
          rw [Bool.and_eq_true] at hpred
          obtain ⟨hnf, hval⟩ := hpred
          refine ⟨hdig, of_decide_eq_true hlo, of_decide_eq_true hhi, hn,
            cell, hmem, ?_, ?_⟩
          · rw [Bool.not_eq_true'] at hnf
            exact hnf
          · rw [← hn]
            exact of_decide_eq_true hval
        · cases h'
      · cases h'
    · cases h'

/-- The rendered grid of the witness: a single unmarked non-free cell
holding 7. -/
def demoCells : List RenderedCell :=
  [{ value := 7, isFree := false, isMarked := false }]

/-- The prompt input of the witness: the digit string for 7. -/
def demoInput : String := "7"

/-- Witness for C10: the input string for 7 on a grid holding 7 issues a
mark request for 7, and the conditions of the claim hold of it. -/
theorem markNumberClick_only_valid_witness :
    ∃ s, (some demoInput : Option String) = some s ∧ isDigitStr s = true ∧
      1 ≤ digitVal s ∧ digitVal s ≤ 75 ∧ digitVal s = 7 ∧
      ∃ c ∈ demoCells, c.isFree = false ∧ c.value = 7 :=
  markNumberClick_only_valid (some demoInput) demoCells true 7 rfl

end Bingo
